import Mathlib

/-!
Verification development for the MEFOnMuhasebe finance tracker.

We shallowly embed the core logic of the repository: the Zustand store
(profiles, transactions, monthly cleanup), the upcoming-payments
projection, the calendar membership test, the period aggregation of the
export service and the expense-by-title grouping of the reports page.

JavaScript `Date` values (always at local midnight in the code under
study) are modelled as epoch day counts (`Int`), using the standard
civil-calendar conversion; `new Date(y, m, d)` normalizes an arbitrary
month index and rolls an out-of-range day-of-month over into adjacent
months, exactly as the ECMAScript constructor does.
-/

namespace MEF

/-- Days since 1970-01-01 of the civil date `(y, m, d)` with `m ∈ 1..12`
(Gregorian, proleptic). -/
def daysFromCivil (y m d : Int) : Int :=
  let yAdj := if m ≤ 2 then y - 1 else y
  let era := Int.fdiv yAdj 400
  let yoe := yAdj - era * 400
  let mp := Int.emod (m + 9) 12
  let doy := Int.fdiv (153 * mp + 2) 5 + d - 1
  let doe := yoe * 365 + Int.fdiv yoe 4 - Int.fdiv yoe 100 + doy
  era * 146097 + doe - 719468

/-- Inverse of `daysFromCivil`: the civil date `(y, m, d)` (with
`m ∈ 1..12`) of an epoch day count. -/
def civilFromDays (z0 : Int) : Int × Int × Int :=
  let z := z0 + 719468
  let era := Int.fdiv z 146097
  let doe := z - era * 146097
  let yoe := Int.fdiv (doe - Int.fdiv doe 1460 + Int.fdiv doe 36524 - Int.fdiv doe 146096) 365
  let y := yoe + era * 400
  let doy := doe - (365 * yoe + Int.fdiv yoe 4 - Int.fdiv yoe 100)
  let mp := Int.fdiv (5 * doy + 2) 153
  let d := doy - Int.fdiv (153 * mp + 2) 5 + 1
  let m := mp + (if mp < 10 then 3 else -9)
  (if m ≤ 2 then y + 1 else y, m, d)

/-- `new Date(y, m, d).getFullYear()` for an epoch-day-encoded date. -/
def getFullYear (e : Int) : Int := (civilFromDays e).1

/-- `getMonth()`: zero-based month of an epoch-day-encoded date. -/
def getMonth (e : Int) : Int := (civilFromDays e).2.1 - 1

/-- `getDate()`: day of month of an epoch-day-encoded date. -/
def getDate (e : Int) : Int := (civilFromDays e).2.2

/-- `new Date(y, m, d)` with zero-based month `m` (any integer) and
day-of-month `d` (any integer): the month index is normalized into the
year and the day rolls over into adjacent months. -/
def mkDate (y m d : Int) : Int :=
  daysFromCivil (y + Int.fdiv m 12) (Int.emod m 12 + 1) 1 + (d - 1)

/-- `date.setDate(d)`: replace the day-of-month, rolling over. -/
def setDate (e d : Int) : Int := mkDate (getFullYear e) (getMonth e) d

/-! ## Data model (`useStore.ts`) -/

inductive Currency
  | TRY | USD | EUR
deriving DecidableEq, Repr

inductive TxType
  | income | expense
deriving DecidableEq, Repr

inductive TCategory
  | salary | freelance | investment | gift | food | transport
  | shopping | utilities | entertainment | health | education | other
deriving DecidableEq, Repr

/-- A calendar date `(year, month 1..12, day)`, the model of the ISO
`"YYYY-MM-DD"` strings stored in `Transaction.date`. -/
structure Civil where
  year : Int
  month : Int
  day : Int
deriving DecidableEq, Repr

/-- Epoch day count of a stored date (midnight, as everywhere in the code). -/
def epochOf (c : Civil) : Int := daysFromCivil c.year c.month c.day

structure Profile where
  id : String
  name : String
  avatarColor : String
  currency : Currency
  createdAt : String
deriving DecidableEq, Repr

structure Transaction where
  id : String
  profileId : String
  type : TxType
  amount : Int
  category : TCategory
  title : String
  description : Option String
  date : Civil
  createdAt : String
  isRecurring : Bool
  recurringDay : Option Int
deriving DecidableEq, Repr

/-- The persisted store state: profiles, transactions, active profile and
the monthly-cleanup marker (a `"YYYY-MM"` string). -/
structure StoreState where
  profiles : List Profile
  transactions : List Transaction
  activeProfileId : Option String
  lastCleanupMonth : Option String
deriving DecidableEq, Repr

/-! ## Store actions (`useStore.ts`) -/

/-- `addTransaction`.  `newId` stands for `generateId()`, `nowDate` for
`getCurrentDate().split('T')[0]` and `nowCreatedAt` for
`getCurrentDate()`.  The optional JS parameters `description`, `date`,
`isRecurring`, `recurringDay` are `Option`s; `isRecurring || false`
becomes `getD false` and `isRecurring ? recurringDay : undefined`
branches on the truthiness of the `isRecurring` argument. -/
def addTransaction (s : StoreState) (newId : String) (nowDate : Civil)
    (nowCreatedAt : String) (profileId : String) (type : TxType) (amount : Int)
    (category : TCategory) (title : String) (description : Option String)
    (date : Option Civil) (isRecurring : Option Bool) (recurringDay : Option Int) :
    StoreState :=
  let newTransaction : Transaction :=
    { id := newId
      profileId := profileId
      type := type
      amount := amount
      category := category
      title := title
      description := description
      date := date.getD nowDate
      createdAt := nowCreatedAt
      isRecurring := isRecurring.getD false
      recurringDay := if isRecurring.getD false then recurringDay else none }
  { s with transactions := newTransaction :: s.transactions }

/-- The `Partial<Omit<Transaction, 'id' | 'profileId' | 'createdAt'>>`
update payload: an outer `none` means the key is absent from the object
(so the spread `{...t, ...data}` keeps the old field). -/
structure UpdateData where
  type : Option TxType := none
  amount : Option Int := none
  category : Option TCategory := none
  title : Option String := none
  description : Option (Option String) := none
  date : Option Civil := none
  isRecurring : Option Bool := none
  recurringDay : Option (Option Int) := none
deriving DecidableEq, Repr

/-- `{...t, ...data}` for one transaction. -/
def mergeTransaction (t : Transaction) (data : UpdateData) : Transaction :=
  { t with
    type := data.type.getD t.type
    amount := data.amount.getD t.amount
    category := data.category.getD t.category
    title := data.title.getD t.title
    description := data.description.getD t.description
    date := data.date.getD t.date
    isRecurring := data.isRecurring.getD t.isRecurring
    recurringDay := data.recurringDay.getD t.recurringDay }

/-- `updateTransaction`. -/
def updateTransaction (s : StoreState) (id : String) (data : UpdateData) :
    StoreState :=
  { s with
    transactions := s.transactions.map fun t =>
      if t.id = id then mergeTransaction t data else t }

/-- `deleteProfile`: one `set` replacing profiles, transactions and the
active selection together. -/
def deleteProfile (s : StoreState) (id : String) : StoreState :=
  { s with
    profiles := s.profiles.filter fun p => p.id ≠ id
    transactions := s.transactions.filter fun t => t.profileId ≠ id
    activeProfileId := if s.activeProfileId = some id then none else s.activeProfileId }

/-- `cleanupNonRecurringTransactions`, with `new Date()`'s month (zero
based) and year passed explicitly. -/
def cleanupNonRecurringTransactions (nowYear nowMonth : Int) (s : StoreState) :
    StoreState :=
  { s with
    transactions := s.transactions.filter fun t =>
      t.isRecurring || (decide (t.date.month - 1 = nowMonth) && decide (t.date.year = nowYear)) }

/-- `String(n).padStart(2, '0')`. -/
def pad2 (n : Int) : String :=
  if (toString n).length < 2 then "0" ++ toString n else toString n

/-- The `"YYYY-MM"` cleanup key built from `now` (`nowMonth` zero based). -/
def monthKey (nowYear nowMonth : Int) : String :=
  toString nowYear ++ "-" ++ pad2 (nowMonth + 1)

/-- `checkAndPerformMonthlyCleanup`. -/
def checkAndPerformMonthlyCleanup (nowYear nowMonth : Int) (s : StoreState) :
    StoreState :=
  let currentMonthKey := monthKey nowYear nowMonth
  if s.lastCleanupMonth ≠ some currentMonthKey then
    let pruned := cleanupNonRecurringTransactions nowYear nowMonth s
    { pruned with lastCleanupMonth := some currentMonthKey }
  else
    s

/-- States reachable from the empty persisted state through the public
transaction actions `addTransaction` and `updateTransaction`. -/
inductive Reachable : StoreState → Prop
  | init : Reachable ⟨[], [], none, none⟩
  | addTx (s newId nowDate nowCreatedAt profileId type amount category title
      description date isRecurring recurringDay) :
      Reachable s →
      Reachable (addTransaction s newId nowDate nowCreatedAt profileId type
        amount category title description date isRecurring recurringDay)
  | updateTx (s id data) :
      Reachable s → Reachable (updateTransaction s id data)

/-! ## Upcoming payments (`UpcomingPayments` component, `upcomingItems`) -/

structure UpcomingItem where
  transaction : Transaction
  dueDate : Int
  daysLeft : Int
deriving DecidableEq, Repr

/-- Truthiness of the optional `recurringDay` field, as tested by the
filter `t.isRecurring && t.recurringDay`. -/
def truthyDay : Option Int → Bool
  | none => false
  | some d => decide (d ≠ 0)

/-- Next-occurrence date for a recurring day, relative to `today`
(midnight): candidate in the current month, advanced one month if already
past, then the attempted clamp to the candidate month's last day. -/
def nextDueDate (today recurringDay : Int) : Int :=
  let d0 := mkDate (getFullYear today) (getMonth today) recurringDay
  let d1 := if d0 < today then mkDate (getFullYear today) (getMonth today + 1) recurringDay
            else d0
  let lastDayOfMonth := getDate (mkDate (getFullYear d1) (getMonth d1 + 1) 0)
  if recurringDay > lastDayOfMonth then setDate d1 lastDayOfMonth else d1

/-- The upcoming item built for a recurring transaction (`t.recurringDay!`
is modelled by `getD 0`; callers only reach this under the truthiness
filter). `daysLeft` is the exact day difference, since both dates sit at
midnight the `Math.ceil` is the identity. -/
def mkRecurringItem (today : Int) (t : Transaction) : UpcomingItem :=
  let dueDate := nextDueDate today (t.recurringDay.getD 0)
  { transaction := t, dueDate := dueDate, daysLeft := dueDate - today }

/-- `daysLeft` of a non-recurring transaction: plain day difference. -/
def futureDaysLeft (today : Int) (t : Transaction) : Int :=
  epochOf t.date - today

/-- Insert an item into a list sorted by ascending `daysLeft`. -/
def insertByDays (x : UpcomingItem) : List UpcomingItem → List UpcomingItem
  | [] => [x]
  | y :: ys =>
    if x.daysLeft ≤ y.daysLeft then x :: y :: ys else y :: insertByDays x ys

/-- `items.sort((a, b) => a.daysLeft - b.daysLeft)`. -/
def sortByDaysLeft : List UpcomingItem → List UpcomingItem
  | [] => []
  | x :: xs => insertByDays x (sortByDaysLeft xs)

/-- The full `upcomingItems` computation: recurring transactions kept when
`0 ≤ daysLeft ≤ 30`, then non-recurring future transactions kept when
`0 < daysLeft ≤ 30`, sorted ascending by `daysLeft`. -/
def upcomingItems (today : Int) (transactions : List Transaction) :
    List UpcomingItem :=
  let recurring :=
    (transactions.filter fun t => t.isRecurring && truthyDay t.recurringDay).filterMap
      fun t =>
        let item := mkRecurringItem today t
        if item.daysLeft ≤ 30 && 0 ≤ item.daysLeft then some item else none
  let future :=
    (transactions.filter fun t =>
        !t.isRecurring && (decide (0 < futureDaysLeft today t) &&
          decide (futureDaysLeft today t ≤ 30))).map
      fun t =>
        { transaction := t, dueDate := epochOf t.date,
          daysLeft := futureDaysLeft today t }
  sortByDaysLeft (recurring ++ future)

/-! ## Calendar membership (`CalendarView`, `calendarData`) -/

/-- The per-cell membership test of `calendarData`: `isMatch` compares the
parsed `t.date` against the displayed cell, `isRecurringMatch` projects a
recurring transaction forward from its creation month
(`currentMonth`/`month` are zero based). -/
def calendarMatch (currentYear currentMonth day : Int) (t : Transaction) : Bool :=
  let isMatch :=
    decide (t.date.day = day) && decide (t.date.month - 1 = currentMonth) &&
      decide (t.date.year = currentYear)
  let isRecurringMatch :=
    t.isRecurring &&
      (match t.recurringDay with
        | some r => decide (r = day)
        | none => false) &&
      (decide (currentYear > t.date.year) ||
        (decide (currentYear = t.date.year) && decide (currentMonth ≥ t.date.month - 1)))
  isMatch || isRecurringMatch

/-! ## Period aggregation (`export-service.ts`, `calculatePeriodData`) -/

inductive PeriodType
  | month | quarter | half | year
deriving DecidableEq, Repr

/-- `[startDate, endDate]` of the requested period, per the `switch` in
`calculatePeriodData` (`month` zero based; `nowMonth` models the
`new Date().getMonth()` fallback for an omitted `month` argument). -/
def periodBounds (periodType : PeriodType) (year : Int) (month : Option Int)
    (nowMonth : Int) : Int × Int :=
  match periodType with
  | .month =>
    let m := month.getD nowMonth
    (mkDate year m 1, mkDate year (m + 1) 0)
  | .quarter =>
    let q := Int.fdiv (month.getD nowMonth) 3
    (mkDate year (q * 3) 1, mkDate year ((q + 1) * 3) 0)
  | .half =>
    let h : Int := if month.getD nowMonth < 6 then 0 else 1
    (mkDate year (h * 6) 1, mkDate year ((h + 1) * 6) 0)
  | .year => (mkDate year 0 1, mkDate year 11 31)

structure ExportData where
  transactions : List Transaction
  profileName : String
  currency : Currency
  totalIncome : Int
  totalExpense : Int
  balance : Int
deriving DecidableEq, Repr

/-- `calculatePeriodData` (the label string, consumed only by the PDF and
Excel sinks, is left out of the result record). -/
def calculatePeriodData (transactions : List Transaction) (profileName : String)
    (currency : Currency) (periodType : PeriodType) (year : Int)
    (month : Option Int) (nowMonth : Int) : ExportData :=
  let bounds := periodBounds periodType year month nowMonth
  let filteredTransactions := transactions.filter fun t =>
    decide (bounds.1 ≤ epochOf t.date) && decide (epochOf t.date ≤ bounds.2)
  let totalIncome :=
    (filteredTransactions.filter fun t => t.type = TxType.income).foldl
      (fun sum t => sum + t.amount) 0
  let totalExpense :=
    (filteredTransactions.filter fun t => t.type = TxType.expense).foldl
      (fun sum t => sum + t.amount) 0
  { transactions := filteredTransactions
    profileName := profileName
    currency := currency
    totalIncome := totalIncome
    totalExpense := totalExpense
    balance := totalIncome - totalExpense }

/-! ## Expense-by-title grouping (reports page, `periodData` / `monthlyData`) -/

structure TitleBucket where
  amount : Int
  category : TCategory
deriving DecidableEq, Repr

/-- `expenseByTitle[t.title].amount += t.amount`: bump the amount of an
existing key, leaving its category untouched. -/
def bumpTitle (title : String) (amt : Int) :
    List (String × TitleBucket) → List (String × TitleBucket)
  | [] => []
  | (k, b) :: rest =>
    if k = title then (k, { b with amount := b.amount + amt }) :: rest
    else (k, b) :: bumpTitle title amt rest

/-- Does the object already have this title as a key? -/
def containsTitle (title : String) (l : List (String × TitleBucket)) : Bool :=
  l.any fun kb => kb.1 = title

/-- One step of the `forEach` building `expenseByTitle` (the `income`
branch feeds the separate `incomeByCategory` object and leaves this one
unchanged). -/
def expenseStep (acc : List (String × TitleBucket)) (t : Transaction) :
    List (String × TitleBucket) :=
  if t.type = TxType.income then acc
  else if containsTitle t.title acc then bumpTitle t.title t.amount acc
  else acc ++ [(t.title, { amount := t.amount, category := t.category })]

/-- The `expenseByTitle` object, as an insertion-ordered association list. -/
def expenseByTitle (transactions : List Transaction) :
    List (String × TitleBucket) :=
  transactions.foldl expenseStep []

/-- Property lookup on the association list. -/
def lookupTitle (title : String) : List (String × TitleBucket) → Option TitleBucket
  | [] => none
  | (k, b) :: rest => if k = title then some b else lookupTitle title rest

/-- Does `t` land in the title bucket `s`: an expense transaction whose
title is `s` (the `else` branch of the grouping loop). -/
def expTitleMatch (s : String) (t : Transaction) : Bool :=
  decide (t.type = TxType.expense) && decide (t.title = s)

/-- Total amount of the expense transactions titled `s` in a list. -/
def titleSum (s : String) : List Transaction → Int
  | [] => 0
  | t :: ts => (if expTitleMatch s t then t.amount else 0) + titleSum s ts

/-! ## Concrete example data used in the spec's testable properties -/

/-- Income of 1000 dated 2025-03-05 (period aggregation round trip). -/
def exIncome : Transaction :=
  { id := "1", profileId := "p", type := .income, amount := 1000,
    category := .salary, title := "Maas", description := none,
    date := ⟨2025, 3, 5⟩, createdAt := "c", isRecurring := false,
    recurringDay := none }

/-- Expense of 400 dated 2025-03-10 (period aggregation round trip). -/
def exExpense : Transaction :=
  { id := "2", profileId := "p", type := .expense, amount := 400,
    category := .food, title := "Market", description := none,
    date := ⟨2025, 3, 10⟩, createdAt := "c", isRecurring := false,
    recurringDay := none }

/-- Recurring transaction dated 5 months before August 2025 (cleanup). -/
def exRecurring : Transaction :=
  { exExpense with id := "r", isRecurring := true, recurringDay := some 10 }

/-- Recurring transaction created 2025-06-15 with `recurringDay = 15`
(calendar no-backward-projection example). -/
def exCalendar : Transaction :=
  { exExpense with
      id := "cal", date := ⟨2025, 6, 15⟩, isRecurring := true,
      recurringDay := some 15 }

/-- First expense titled `"Kira"`, category `food`. -/
def exRent1 : Transaction :=
  { exExpense with id := "k1", title := "Kira", category := .food }

/-- Second expense titled `"Kira"`, category `transport`. -/
def exRent2 : Transaction :=
  { exExpense with
      id := "k2", amount := 50, title := "Kira", category := .transport }

/-- State reached by one `addTransaction` call passing `isRecurring = true`
but omitting `recurringDay`. -/
def badState : StoreState :=
  addTransaction ⟨[], [], none, none⟩ "i" ⟨2025, 6, 1⟩ "c" "p" .expense 5
    .other "T" none none (some true) none

/-- The transaction that call stores. -/
def badTx : Transaction :=
  { id := "i", profileId := "p", type := .expense, amount := 5,
    category := .other, title := "T", description := none,
    date := ⟨2025, 6, 1⟩, createdAt := "c", isRecurring := true,
    recurringDay := none }

end MEF

namespace MEF

/-! ## Helper lemmas -/

theorem mem_insertByDays {a x : UpcomingItem} {l : List UpcomingItem} :
    a ∈ insertByDays x l ↔ a = x ∨ a ∈ l := by
  induction l with
  | nil => simp [insertByDays]
  | cons y ys ih =>
    simp only [insertByDays]
    split
    · simp
    · simp only [List.mem_cons, ih]
      tauto

theorem mem_sortByDaysLeft {a : UpcomingItem} {l : List UpcomingItem} :
    a ∈ sortByDaysLeft l ↔ a ∈ l := by
  induction l with
  | nil => simp [sortByDaysLeft]
  | cons y ys ih =>
    simp only [sortByDaysLeft, mem_insertByDays, ih, List.mem_cons]

theorem sorted_insertByDays {x : UpcomingItem} {l : List UpcomingItem}
    (h : l.Pairwise fun a b => a.daysLeft ≤ b.daysLeft) :
    (insertByDays x l).Pairwise fun a b => a.daysLeft ≤ b.daysLeft := by
  induction l with
  | nil => simp [insertByDays]
  | cons y ys ih =>
    rw [List.pairwise_cons] at h
    obtain ⟨hy, hys⟩ := h
    simp only [insertByDays]
    split
    · rename_i hxy
      refine List.Pairwise.cons ?_ (List.Pairwise.cons hy hys)
      intro b hb
      rcases List.mem_cons.mp hb with rfl | hb
      · exact hxy
      · exact le_trans hxy (hy b hb)
    · rename_i hxy
      push_neg at hxy
      refine List.Pairwise.cons ?_ (ih hys)
      intro b hb
      rcases mem_insertByDays.mp hb with rfl | hb
      · exact le_of_lt hxy
      · exact hy b hb

theorem sorted_sortByDaysLeft (l : List UpcomingItem) :
    (sortByDaysLeft l).Pairwise fun a b => a.daysLeft ≤ b.daysLeft := by
  induction l with
  | nil => simp [sortByDaysLeft]
  | cons y ys ih => exact sorted_insertByDays ih

/-! ## Claim theorems -/

/-- Claim C1. The next-occurrence computation is supposed to clamp an
out-of-range `recurringDay` to the last day of the candidate month
(`recurringDay = 31` with a reference date in April should give Apr 30,
and Feb 28 in a non-leap February).  The code's own comment announces the
clamp (`// Handle months with fewer days`), but the `Date` constructor has
already rolled the invalid day over into the next month before the clamp
is checked, so the clamp never fires: the computed due dates are May 1 and
Mar 3 instead. -/
theorem nextDueDate_rollover_bug :
    civilFromDays (nextDueDate (daysFromCivil 2025 4 10) 31) = (2025, 5, 1) ∧
    civilFromDays (nextDueDate (daysFromCivil 2025 2 10) 31) = (2025, 3, 3) ∧
    ((2025, 5, 1) : Int × Int × Int) ≠ (2025, 4, 30) ∧
    ((2025, 3, 3) : Int × Int × Int) ≠ (2025, 2, 28) := by
  decide

/-- Claim C3. After `cleanupNonRecurringTransactions` runs, a transaction
is retained exactly when it is recurring or dated in the current calendar
month; concretely, of one recurring and one non-recurring transaction both
dated March 2025 with the current month August 2025, exactly the
non-recurring one is removed. -/
theorem cleanup_retention :
    (∀ (nowYear nowMonth : Int) (s : StoreState) (t : Transaction),
      t ∈ (cleanupNonRecurringTransactions nowYear nowMonth s).transactions ↔
        (t ∈ s.transactions ∧
          (t.isRecurring = true ∨
            (t.date.month - 1 = nowMonth ∧ t.date.year = nowYear)))) ∧
    (cleanupNonRecurringTransactions 2025 7
        ⟨[], [exRecurring, exExpense], none, none⟩).transactions = [exRecurring] := by
  constructor
  · intro nowYear nowMonth s t
    simp [cleanupNonRecurringTransactions, List.mem_filter]
  · decide

/-- Claim C5. `calculatePeriodData` keeps a transaction exactly when its
date lies between the period's start and end dates inclusive; for the
`month` period the bounds are the first and last day of the reference
month; and on the two-transaction example for March 2025 it returns
`totalIncome = 1000`, `totalExpense = 400`, `balance = 600` and two
filtered transactions. -/
theorem calculatePeriodData_spec :
    (∀ (ts : List Transaction) (profileName : String) (currency : Currency)
        (periodType : PeriodType) (year : Int) (month : Option Int)
        (nowMonth : Int) (t : Transaction),
      t ∈ (calculatePeriodData ts profileName currency periodType year month
            nowMonth).transactions ↔
        (t ∈ ts ∧
          (periodBounds periodType year month nowMonth).1 ≤ epochOf t.date ∧
          epochOf t.date ≤ (periodBounds periodType year month nowMonth).2)) ∧
    periodBounds .month 2025 (some 2) 0 =
      (daysFromCivil 2025 3 1, daysFromCivil 2025 3 31) ∧
    (calculatePeriodData [exIncome, exExpense] "P" .TRY .month 2025 (some 2)
        0).totalIncome = 1000 ∧
    (calculatePeriodData [exIncome, exExpense] "P" .TRY .month 2025 (some 2)
        0).totalExpense = 400 ∧
    (calculatePeriodData [exIncome, exExpense] "P" .TRY .month 2025 (some 2)
        0).balance = 600 ∧
    (calculatePeriodData [exIncome, exExpense] "P" .TRY .month 2025 (some 2)
        0).transactions.length = 2 := by
  refine ⟨?_, by decide, by decide, by decide, by decide, by decide⟩
  intro ts profileName currency periodType year month nowMonth t
  simp [calculatePeriodData, List.mem_filter, and_assoc]

/-- Claim C9. `deleteProfile id` removes, in one state replacement,
exactly the profile with that id and every transaction of that profile,
clears the active selection exactly when the deleted profile was active,
leaves everything else (including the cleanup marker) unchanged, and
leaves zero transactions carrying that `profileId`. -/
theorem deleteProfile_spec :
    ∀ (s : StoreState) (id : String),
      (∀ p, p ∈ (deleteProfile s id).profiles ↔ (p ∈ s.profiles ∧ p.id ≠ id)) ∧
      (∀ t, t ∈ (deleteProfile s id).transactions ↔
        (t ∈ s.transactions ∧ t.profileId ≠ id)) ∧
      (deleteProfile s id).activeProfileId =
        (if s.activeProfileId = some id then none else s.activeProfileId) ∧
      (deleteProfile s id).transactions.countP (fun t => t.profileId = id) = 0 ∧
      (deleteProfile s id).lastCleanupMonth = s.lastCleanupMonth := by
  intro s id
  refine ⟨?_, ?_, rfl, ?_, rfl⟩
  · intro p
    simp [deleteProfile, List.mem_filter]
  · intro t
    simp [deleteProfile, List.mem_filter]
  · rw [List.countP_eq_zero]
    intro t ht
    simp only [deleteProfile, List.mem_filter, decide_eq_true_eq] at ht ⊢
    exact ht.2

/-- Claim C10. `addTransaction` called with `isRecurring` false or omitted
stores the new transaction with `recurringDay = none` even when a
`recurringDay` argument is supplied, prepends it at the head of the
transaction list, and leaves the previous transactions, the profiles and
the active selection unchanged. -/
theorem addTransaction_nonrecurring_spec :
    ∀ (s : StoreState) (newId : String) (nowDate : Civil) (nowCreatedAt : String)
      (profileId : String) (type : TxType) (amount : Int) (category : TCategory)
      (title : String) (description : Option String) (date : Option Civil)
      (isRecurring : Option Bool) (recurringDay : Option Int),
      isRecurring.getD false = false →
      addTransaction s newId nowDate nowCreatedAt profileId type amount category
          title description date isRecurring recurringDay =
        { s with transactions :=
            { id := newId, profileId := profileId, type := type, amount := amount,
              category := category, title := title, description := description,
              date := date.getD nowDate, createdAt := nowCreatedAt,
              isRecurring := false, recurringDay := none } :: s.transactions } := by
  intro s newId nowDate nowCreatedAt profileId type amount category title
    description date isRecurring recurringDay h
  simp [addTransaction, h]

theorem calendarMatch_iff (cy cm day : Int) (t : Transaction) :
    calendarMatch cy cm day t = true ↔
      ((t.date.day = day ∧ t.date.month - 1 = cm ∧ t.date.year = cy) ∨
        (t.isRecurring = true ∧ t.recurringDay = some day ∧
          (cy > t.date.year ∨ (cy = t.date.year ∧ cm ≥ t.date.month - 1)))) := by
  cases h : t.recurringDay with
  | none =>
    simp only [calendarMatch, h, Bool.or_eq_true, Bool.and_eq_true,
      decide_eq_true_eq]
    tauto
  | some r =>
    simp only [calendarMatch, h, Bool.or_eq_true, Bool.and_eq_true,
      decide_eq_true_eq, Option.some.injEq]
    constructor
    · rintro (⟨⟨h1, h2⟩, h3⟩ | ⟨⟨h1, h2⟩, h3⟩)
      · exact Or.inl ⟨h1, h2, h3⟩
      · subst h2
        exact Or.inr ⟨h1, rfl, by tauto⟩
    · rintro (⟨h1, h2, h3⟩ | ⟨h1, h2, h3⟩)
      · exact Or.inl ⟨⟨h1, h2⟩, h3⟩
      · cases h2
        exact Or.inr ⟨⟨h1, rfl⟩, by tauto⟩

/-- Claim C2. The calendar membership test is true exactly when the
transaction's date falls on the displayed date, or the transaction is
recurring, its `recurringDay` equals the displayed day and its original
year/month is not later than the displayed year/month; the recurring
transaction created 2025-06-15 with `recurringDay = 15` never appears in
March 2025 but appears on day 15 of June 2025 and of every later month. -/
theorem calendarMatch_spec :
    (∀ (cy cm day : Int) (t : Transaction),
      calendarMatch cy cm day t = true ↔
        ((t.date.day = day ∧ t.date.month - 1 = cm ∧ t.date.year = cy) ∨
          (t.isRecurring = true ∧ t.recurringDay = some day ∧
            (cy > t.date.year ∨ (cy = t.date.year ∧ cm ≥ t.date.month - 1))))) ∧
    (∀ day : Int, calendarMatch 2025 2 day exCalendar = false) ∧
    (∀ cy cm : Int, (cy > 2025 ∨ (cy = 2025 ∧ cm ≥ 5)) →
      calendarMatch cy cm 15 exCalendar = true) := by
  refine ⟨calendarMatch_iff, ?_, ?_⟩
  · intro day
    rw [← Bool.not_eq_true, calendarMatch_iff]
    rintro (⟨h1, h2, h3⟩ | ⟨h1, h2, h3⟩)
    · simp only [exCalendar, exExpense] at h2
      omega
    · simp only [exCalendar, exExpense] at h3
      omega
  · intro cy cm h
    rw [calendarMatch_iff]
    right
    refine ⟨rfl, rfl, ?_⟩
    simp only [exCalendar, exExpense]
    omega

/-- Witness for claim C2 at concrete input: the recurring transaction
created 2025-06-15 appears on day 15 of July 2025. -/
theorem calendarMatch_spec_witness :
    calendarMatch 2025 6 15 exCalendar = true :=
  calendarMatch_spec.2.2 2025 6 (Or.inr ⟨rfl, by decide⟩)

/-- Claim C4. `checkAndPerformMonthlyCleanup` is idempotent within a
calendar month: it compares the `"YYYY-MM"` key of the current date with
the persisted marker; when they differ it prunes and stores the key, and
otherwise it leaves the state untouched, so a second call in the same
month is a no-op. -/
theorem monthlyCleanup_idempotent :
    ∀ (nowYear nowMonth : Int) (s : StoreState),
      checkAndPerformMonthlyCleanup nowYear nowMonth
          (checkAndPerformMonthlyCleanup nowYear nowMonth s) =
        checkAndPerformMonthlyCleanup nowYear nowMonth s ∧
      (s.lastCleanupMonth = some (monthKey nowYear nowMonth) →
        checkAndPerformMonthlyCleanup nowYear nowMonth s = s) ∧
      (s.lastCleanupMonth ≠ some (monthKey nowYear nowMonth) →
        checkAndPerformMonthlyCleanup nowYear nowMonth s =
          { cleanupNonRecurringTransactions nowYear nowMonth s with
              lastCleanupMonth := some (monthKey nowYear nowMonth) }) := by
  intro nowYear nowMonth s
  by_cases h : s.lastCleanupMonth = some (monthKey nowYear nowMonth)
  · refine ⟨?_, fun _ => ?_, fun hne => absurd h hne⟩ <;>
      simp [checkAndPerformMonthlyCleanup, h]
  · refine ⟨?_, fun heq => absurd heq h, fun _ => ?_⟩
    · simp [checkAndPerformMonthlyCleanup, h, cleanupNonRecurringTransactions]
    · simp [checkAndPerformMonthlyCleanup, h, cleanupNonRecurringTransactions]

/-- Witness for claim C4 at concrete input: with the marker already at
`"2025-08"`, an August 2025 call leaves the state unchanged. -/
theorem monthlyCleanup_idempotent_witness :
    checkAndPerformMonthlyCleanup 2025 7 ⟨[], [], none, some "2025-08"⟩ =
      ⟨[], [], none, some "2025-08"⟩ :=
  (monthlyCleanup_idempotent 2025 7 ⟨[], [], none, some "2025-08"⟩).2.1 (by decide)

/-- Counterexample to claim C7 as stated: the state reached by a single
`addTransaction` call passing `isRecurring = true` while omitting
`recurringDay` stores a transaction with `isRecurring = true` and
`recurringDay = none`, so the claimed invariant
`isRecurring = true ⇔ recurringDay defined and 1 ≤ recurringDay ≤ 31`
fails on a state reachable through the public actions. -/
theorem storeInvariant_violation :
    Reachable badState ∧ badTx ∈ badState.transactions ∧
    badTx.isRecurring = true ∧ badTx.recurringDay = none ∧
    ¬(badTx.isRecurring = true ↔
        ∃ d : Int, badTx.recurringDay = some d ∧ 1 ≤ d ∧ d ≤ 31) := by
  refine ⟨?_, by decide, rfl, rfl, ?_⟩
  · exact Reachable.addTx ⟨[], [], none, none⟩ "i" ⟨2025, 6, 1⟩ "c" "p" .expense
      5 .other "T" none none (some true) none Reachable.init
  · intro hiff
    obtain ⟨d, hd, _⟩ := hiff.mp rfl
    simp [badTx] at hd

/-- Claim C7, amended. The code validates nothing: `addTransaction` can
store `isRecurring = true` with `recurringDay` undefined or out of range,
and `updateTransaction` merges arbitrary partial data.  What does hold is
the converse direction at creation: a transaction stored by
`addTransaction` has `recurringDay` defined only if its `isRecurring` flag
is true. -/
theorem addTransaction_recurring_guard :
    ∀ (s : StoreState) (newId : String) (nowDate : Civil) (nowCreatedAt : String)
      (profileId : String) (type : TxType) (amount : Int) (category : TCategory)
      (title : String) (description : Option String) (date : Option Civil)
      (isRecurring : Option Bool) (recurringDay : Option Int) (t : Transaction),
      (addTransaction s newId nowDate nowCreatedAt profileId type amount category
          title description date isRecurring recurringDay).transactions.head? =
        some t →
      t.recurringDay ≠ none → t.isRecurring = true := by
  intro s newId nowDate nowCreatedAt profileId type amount category title
    description date isRecurring recurringDay t ht hd
  simp only [addTransaction, List.head?, Option.some.injEq] at ht
  subst ht
  by_cases hb : isRecurring.getD false = true
  · simpa using hb
  · simp only [Bool.not_eq_true] at hb
    simp [hb] at hd

/-- Witness for the amended claim C7 at concrete input. -/
theorem addTransaction_recurring_guard_witness :
    ({ id := "i", profileId := "p", type := .expense, amount := 5,
       category := .other, title := "T", description := none,
       date := ⟨2025, 6, 1⟩, createdAt := "c", isRecurring := true,
       recurringDay := some 7 } : Transaction).isRecurring = true :=
  addTransaction_recurring_guard ⟨[], [], none, none⟩ "i" ⟨2025, 6, 1⟩ "c" "p"
    .expense 5 .other "T" none none (some true) (some 7) _ rfl (by decide)

theorem lookupTitle_bumpTitle_eq (s k : String) (amt : Int)
    (l : List (String × TitleBucket)) :
    lookupTitle s (bumpTitle k amt l) =
      (lookupTitle s l).map
        (fun b => if k = s then { b with amount := b.amount + amt } else b) := by
  induction l with
  | nil => rfl
  | cons kb rest ih =>
    obtain ⟨k0, b0⟩ := kb
    by_cases hk : k0 = k
    · by_cases hs : k0 = s
      · have hks : k = s := by rw [← hk]; exact hs
        simp [bumpTitle, hk, lookupTitle, hs, hks]
      · have hks : ¬k = s := by rw [← hk]; exact hs
        simp [bumpTitle, hk, lookupTitle, hs, hks, Option.map_id']
    · by_cases hs : k0 = s
      · have hks : ¬k = s := fun he => hk (hs.trans he.symm)
        have hsk : ¬s = k := fun he => hks he.symm
        simp [bumpTitle, hk, lookupTitle, hs, hks, hsk]
      · simp [bumpTitle, hk, lookupTitle, hs, ih]

/-- Witness for claim C10 at concrete input: `isRecurring = some false`
with `recurringDay = some 7` still stores `recurringDay = none`. -/
theorem addTransaction_nonrecurring_spec_witness :
    addTransaction ⟨[], [], none, none⟩ "i" ⟨2025, 6, 1⟩ "c" "p" .expense 5
        .other "T" none none (some false) (some 7) =
      ⟨[], [{ id := "i", profileId := "p", type := .expense, amount := 5,
              category := .other, title := "T", description := none,
              date := ⟨2025, 6, 1⟩, createdAt := "c", isRecurring := false,
              recurringDay := none }], none, none⟩ :=
  addTransaction_nonrecurring_spec ⟨[], [], none, none⟩ "i" ⟨2025, 6, 1⟩ "c" "p"
    .expense 5 .other "T" none none (some false) (some 7) rfl

theorem lookupTitle_append_single (s xk : String) (xb : TitleBucket)
    (l : List (String × TitleBucket)) :
    lookupTitle s (l ++ [(xk, xb)]) =
      (match lookupTitle s l with
        | some b => some b
        | none => if xk = s then some xb else none) := by
  induction l with
  | nil => simp [lookupTitle]
  | cons kb rest ih =>
    obtain ⟨k0, b0⟩ := kb
    by_cases hs : k0 = s
    · simp [lookupTitle, hs]
    · simp only [List.cons_append, lookupTitle, if_neg hs]
      exact ih

theorem containsTitle_eq_isSome (s : String) (l : List (String × TitleBucket)) :
    containsTitle s l = (lookupTitle s l).isSome := by
  induction l with
  | nil => rfl
  | cons kb rest ih =>
    obtain ⟨k0, b0⟩ := kb
    by_cases hs : k0 = s
    · simp [containsTitle, lookupTitle, hs]
    · simp [containsTitle, lookupTitle, hs, ← ih, containsTitle]

theorem lookupTitle_foldl_expenseStep (ts : List Transaction) :
    ∀ (acc : List (String × TitleBucket)) (s : String),
      lookupTitle s (ts.foldl expenseStep acc) =
        (match lookupTitle s acc with
          | some b => some { b with amount := b.amount + titleSum s ts }
          | none =>
            match ts.find? (expTitleMatch s) with
            | some t0 => some { amount := titleSum s ts, category := t0.category }
            | none => none) := by
  induction ts with
  | nil =>
    intro acc s
    cases h : lookupTitle s acc <;> simp [h, titleSum]
  | cons t ts ih =>
    intro acc s
    rw [List.foldl_cons, ih]
    by_cases hty : t.type = TxType.income
    · have hstep : expenseStep acc t = acc := by simp [expenseStep, hty]
      have hpt : expTitleMatch s t = false := by simp [expTitleMatch, hty]
      rw [hstep, List.find?_cons_of_neg _ (by simp [hpt])]
      cases h : lookupTitle s acc <;> simp [h, titleSum, hpt]
    · have hty2 : t.type = TxType.expense := by
        cases h2 : t.type
        · exact absurd h2 hty
        · rfl
      by_cases hts : t.title = s
      · have hpt : expTitleMatch s t = true := by simp [expTitleMatch, hty2, hts]
        rw [List.find?_cons_of_pos _ (by simp [hpt])]
        cases h : lookupTitle s acc with
        | some b =>
          have hc : containsTitle t.title acc = true := by
            rw [hts, containsTitle_eq_isSome, h]
            rfl
          have hstep : expenseStep acc t = bumpTitle t.title t.amount acc := by
            simp [expenseStep, hty, hc]
          rw [hstep, lookupTitle_bumpTitle_eq, h]
          simp only [Option.map_some', if_pos hts, titleSum, hpt, if_true,
            Option.some.injEq, TitleBucket.mk.injEq]
          exact ⟨by ring, trivial⟩
        | none =>
          have hc : containsTitle t.title acc = false := by
            rw [hts, containsTitle_eq_isSome, h]
            rfl
          have hstep : expenseStep acc t =
              acc ++ [(t.title, { amount := t.amount, category := t.category })] := by
            simp [expenseStep, hty, hc]
          rw [hstep, lookupTitle_append_single, h]
          simp [hts, titleSum, hpt]
      · have hpt : expTitleMatch s t = false := by simp [expTitleMatch, hts]
        rw [List.find?_cons_of_neg _ (by simp [hpt])]
        by_cases hc : containsTitle t.title acc = true
        · have hstep : expenseStep acc t = bumpTitle t.title t.amount acc := by
            simp [expenseStep, hty, hc]
          rw [hstep, lookupTitle_bumpTitle_eq]
          cases h : lookupTitle s acc <;>
            simp [h, titleSum, hpt, hts]
        · have hstep : expenseStep acc t =
              acc ++ [(t.title, { amount := t.amount, category := t.category })] := by
            simp only [expenseStep, if_neg hty, Bool.not_eq_true] at *
            simp [hc]
          rw [hstep, lookupTitle_append_single]
          cases h : lookupTitle s acc <;> simp [h, titleSum, hpt, hts]

/-- Counterexample to claim C6 as stated: two expense transactions share
the title `"Kira"` with categories `food` then `transport`; the bucket's
representative category is `food`, the category of the FIRST transaction
merged, not of the last one processed. -/
theorem expenseByTitle_last_category_fails :
    exRent1.title = "Kira" ∧ exRent2.title = "Kira" ∧
    exRent1.type = TxType.expense ∧ exRent2.type = TxType.expense ∧
    exRent1.category = TCategory.food ∧ exRent2.category = TCategory.transport ∧
    (lookupTitle "Kira" (expenseByTitle [exRent1, exRent2])).map (·.category) =
      some TCategory.food ∧
    TCategory.food ≠ TCategory.transport := by
  decide

/-- Claim C6, amended. Expense transactions are grouped into buckets by
title, summing `amount` per title, and each title bucket's representative
category is the category of the FIRST transaction inserted into that
bucket: later merges only add to `amount` and leave the category
untouched.  Precisely, the bucket for title `s` exists exactly when some
expense transaction has that title, its amount is the total over those
transactions, and its category is the first such transaction's category. -/
theorem expenseByTitle_first_category :
    ∀ (ts : List Transaction) (s : String),
      lookupTitle s (expenseByTitle ts) =
        (match ts.find? (expTitleMatch s) with
          | some t0 => some { amount := titleSum s ts, category := t0.category }
          | none => none) := by
  intro ts s
  rw [expenseByTitle, lookupTitle_foldl_expenseStep]
  rfl

theorem mem_upcomingItems {today : Int} {ts : List Transaction}
    {it : UpcomingItem} :
    it ∈ upcomingItems today ts ↔
      ((∃ t ∈ ts, (t.isRecurring && truthyDay t.recurringDay) = true ∧
          it = mkRecurringItem today t ∧ 0 ≤ it.daysLeft ∧ it.daysLeft ≤ 30) ∨
        (∃ t ∈ ts, t.isRecurring = false ∧ 0 < futureDaysLeft today t ∧
          futureDaysLeft today t ≤ 30 ∧
          it = { transaction := t, dueDate := epochOf t.date,
                 daysLeft := futureDaysLeft today t })) := by
  simp only [upcomingItems, mem_sortByDaysLeft, List.mem_append,
    List.mem_filterMap, List.mem_filter, List.mem_map, Bool.and_eq_true,
    Bool.not_eq_true', decide_eq_true_eq]
  constructor
  · rintro (⟨t, ⟨htm, hfl⟩, hsome⟩ | ⟨t, ⟨htm, hrec, h0, h30⟩, heq⟩)
    · split at hsome
      · rename_i hcond
        simp only [Option.some.injEq] at hsome
        subst hsome
        exact Or.inl ⟨t, htm, by simp [hfl], rfl, hcond.2, hcond.1⟩
      · exact absurd hsome (by simp)
    · exact Or.inr ⟨t, htm, hrec, h0, h30, heq.symm⟩
  · rintro (⟨t, htm, hfl, hit, h0, h30⟩ | ⟨t, htm, hrec, h0, h30, hit⟩)
    · refine Or.inl ⟨t, ⟨htm, hfl⟩, ?_⟩
      rw [if_pos]
      · rw [hit]
      · subst hit
        exact ⟨h30, h0⟩
    · exact Or.inr ⟨t, ⟨htm, hrec, h0, h30⟩, hit.symm⟩

/-- Claim C8. The combined upcoming list contains a recurring transaction
(with a truthy `recurringDay` `d`, which the data model constrains to
`1 ≤ d ≤ 31`) exactly when its computed `daysLeft` satisfies
`0 ≤ daysLeft ≤ 30`, contains a non-recurring transaction exactly when its
plain day-difference `daysLeft` satisfies `0 < daysLeft ≤ 30`, and the
resulting list is sorted in ascending order of `daysLeft`. -/
theorem upcoming_spec :
    (∀ (today : Int) (ts : List Transaction) (t : Transaction) (d : Int),
      t ∈ ts → t.isRecurring = true → t.recurringDay = some d → 1 ≤ d →
      ((∃ it ∈ upcomingItems today ts, it.transaction = t) ↔
        (0 ≤ nextDueDate today d - today ∧ nextDueDate today d - today ≤ 30))) ∧
    (∀ (today : Int) (ts : List Transaction) (t : Transaction),
      t ∈ ts → t.isRecurring = false →
      ((∃ it ∈ upcomingItems today ts, it.transaction = t) ↔
        (0 < epochOf t.date - today ∧ epochOf t.date - today ≤ 30))) ∧
    (∀ (today : Int) (ts : List Transaction),
      (upcomingItems today ts).Pairwise fun a b => a.daysLeft ≤ b.daysLeft) := by
  refine ⟨?_, ?_, fun today ts => sorted_sortByDaysLeft _⟩
  · intro today ts t d hmem hrec hrd hd1
    constructor
    · rintro ⟨it, hit, htr⟩
      rcases mem_upcomingItems.mp hit with
        ⟨t', _, _, hform, h0, h30⟩ | ⟨t', _, hnr, _, _, hform⟩
      · have ht' : t' = t := by rw [← htr, hform, mkRecurringItem]
        subst ht'
        rw [hform, mkRecurringItem] at h0 h30
        simp only [hrd, Option.getD_some] at h0 h30
        exact ⟨h0, h30⟩
      · have ht' : t' = t := by rw [← htr, hform]
        rw [ht'] at hnr
        rw [hrec] at hnr
        cases hnr
    · rintro ⟨h0, h30⟩
      refine ⟨mkRecurringItem today t, mem_upcomingItems.mpr (Or.inl ⟨t, hmem, ?_, rfl, ?_, ?_⟩), rfl⟩
      · simp only [hrec, truthyDay, hrd, Bool.true_and, decide_eq_true_eq]
        omega
      · simpa [mkRecurringItem, hrd] using h0
      · simpa [mkRecurringItem, hrd] using h30
  · intro today ts t hmem hnr
    constructor
    · rintro ⟨it, hit, htr⟩
      rcases mem_upcomingItems.mp hit with
        ⟨t', _, hfl, hform, _, _⟩ | ⟨t', _, _, h0, h30, hform⟩
      · have ht' : t' = t := by rw [← htr, hform, mkRecurringItem]
        rw [ht'] at hfl
        rw [hnr] at hfl
        simp at hfl
      · have ht' : t' = t := by rw [← htr, hform]
        rw [ht'] at h0 h30
        exact ⟨h0, h30⟩
    · rintro ⟨h0, h30⟩
      exact ⟨{ transaction := t, dueDate := epochOf t.date,
               daysLeft := futureDaysLeft today t },
        mem_upcomingItems.mpr (Or.inr ⟨t, hmem, hnr, h0, h30, rfl⟩), rfl⟩

/-- Witness for claim C8 at concrete input: the recurring transaction with
`recurringDay = 15`, relative to 2025-04-10, is in the upcoming list
exactly when its computed `daysLeft` (namely 5) is between 0 and 30. -/
theorem upcoming_spec_witness :
    (∃ it ∈ upcomingItems (daysFromCivil 2025 4 10) [exCalendar],
        it.transaction = exCalendar) ↔
      (0 ≤ nextDueDate (daysFromCivil 2025 4 10) 15 - daysFromCivil 2025 4 10 ∧
        nextDueDate (daysFromCivil 2025 4 10) 15 - daysFromCivil 2025 4 10 ≤ 30) :=
  upcoming_spec.1 (daysFromCivil 2025 4 10) [exCalendar] exCalendar 15
    (List.mem_singleton.mpr rfl) rfl rfl (by decide)

end MEF
